import Mathlib

/-!
Shallow embedding of the themis credential issuance engine and of the
`xhttpserver` unmarshal providers.

The repository sources contain the `xhttpserver/unmarshal.go` providers and
the `TestNewFactory` test of the token package.  The token, key and random
packages themselves (Factory, Registry, Noncer) are not present in the
sources; they are modelled here from the specification (sections 3, 4, 6
and 7), faithful to its words, and exercised exactly the way the test does.

Machine integers do not occur: key strengths and byte counts are `Nat`,
random bytes are `Nat` values below 256 supplied by an explicit source.
-/

set_option autoImplicit false

/-- URL-safe base64 alphabet, as used by the compact token serialization and
the nonce encoding (spec section 6: base64url segments; section 3: nonce is a
URL-safe base64 string). -/
def base64Chars : List Char :=
  ("ABCDEFGHIJKLMNOPQRSTUVWXYZabcdefghijklmnopqrstuvwxyz0123456789-_").toList

/-- Character of the base64url alphabet at index `n` (indices are below 64). -/
def b64Char (n : Nat) : Char := base64Chars.getD n ('A')

/-- Modelled from the spec: raw (unpadded) base64url encoding of a byte
sequence, three input bytes to four alphabet characters. -/
def base64url : List Nat → String
  | [] => ""
  | [b1] => String.mk [b64Char (b1 / 4), b64Char (b1 % 4 * 16)]
  | [b1, b2] =>
    String.mk [b64Char (b1 / 4), b64Char (b1 % 4 * 16 + b2 / 16), b64Char (b2 % 16 * 4)]
  | b1 :: b2 :: b3 :: rest =>
    String.mk [b64Char (b1 / 4), b64Char (b1 % 4 * 16 + b2 / 16),
      b64Char (b2 % 16 * 4 + b3 / 64), b64Char (b3 % 64)] ++ base64url rest

/-- Bytes of an (ASCII) string, used when serialized JSON is fed to the
base64url encoder and to the signer. -/
def strBytes (s : String) : List Nat := s.toList.map Char.toNat

/-- Modelled from the spec: the error taxonomy of section 7. -/
inductive TokenError where
  | invalidDescriptor
  | keyConflict
  | keyGenerationFailed
  | randomnessUnavailable
  | nonceExhausted
  | signingFailed
deriving DecidableEq

/-- Modelled from the spec: the implicit signing-algorithm registry of
section 6 maps an algorithm identifier to its minimum key strength; `none`
means the identifier is unsupported.  The spec fixes no concrete minima, so
the RSA family minimum is chosen as 512, the value the repository's
`TestNewFactory` requires to succeed (`Alg "RS256"` with `Bits 512`). -/
def algMinBits : String → Option Nat
  | "RS256" => some 512
  | "RS384" => some 512
  | "RS512" => some 512
  | _ => none

/-- A randomness source: draw index and requested byte count to either the
drawn bytes or a failure (spec section 6: failure is a first-class,
reportable condition). -/
def RandomSource : Type := Nat → Nat → Option (List Nat)

/-- A source that never fails to deliver bytes. -/
def HealthySource (src : RandomSource) : Prop :=
  ∀ i len, (src i len).isSome = true

namespace key

/-- Modelled from the spec: a key descriptor identifies a key to be generated
or located (section 3). -/
structure Descriptor where
  Kid : String
  Bits : Nat
deriving DecidableEq

/-- Modelled from the spec: a signing key is opaque material plus its kid,
algorithm and strength, immutable once created (section 3). -/
structure Key where
  Kid : String
  Alg : String
  Bits : Nat
  material : List Nat
deriving DecidableEq

/-- Modelled from the spec: the key registry, a mapping from kid to signing
key bound to a secure randomness source; the source position is the number of
draws taken so far. -/
structure Registry where
  source : RandomSource
  pos : Nat
  keys : List (String × Key)

/-- Modelled from the spec: `NewRegistry` constructs an empty registry bound
to a randomness source (section 4.1). -/
def NewRegistry (source : RandomSource) : Registry :=
  { source := source, pos := 0, keys := [] }

/-- Lookup of the key recorded under a kid, if any. -/
def Registry.find (r : Registry) (kid : String) : Option Key :=
  (r.keys.find? (fun p => p.1 == kid)).map (fun p => p.2)

/-- Modelled from the spec, section 4.1: if a key with `d.Kid` exists it is
returned iff its recorded algorithm and strength match, else `KeyConflict`;
otherwise a fresh key of the requested algorithm and strength is generated
from the registry's source, stored under the kid and returned.
`KeyGenerationFailed` covers invalid algorithm parameters and randomness
failure. -/
def Registry.Resolve (r : Registry) (d : Descriptor) (alg : String) :
    Except TokenError (Key × Registry) :=
  match r.find d.Kid with
  | some k =>
    if k.Alg = alg ∧ k.Bits = d.Bits then .ok (k, r) else .error .keyConflict
  | none =>
    match algMinBits alg with
    | none => .error .keyGenerationFailed
    | some m =>
      if d.Bits < m then .error .keyGenerationFailed
      else
        match r.source r.pos d.Bits with
        | none => .error .keyGenerationFailed
        | some material =>
          let k : Key := { Kid := d.Kid, Alg := alg, Bits := d.Bits, material := material }
          .ok (k, { r with pos := r.pos + 1, keys := (d.Kid, k) :: r.keys })

end key

namespace random

/-- Modelled from the spec: the optional nonce store capability,
`seen(value) -> bool` and `record(value)` (sections 3 and 6); modelled as the
list of recorded values. -/
structure NonceStore where
  recorded : List String
deriving DecidableEq

/-- Whether a value was recorded before. -/
def NonceStore.seen (s : NonceStore) (v : String) : Bool := s.recorded.contains v

/-- Record a value in the store. -/
def NonceStore.record (s : NonceStore) (v : String) : NonceStore :=
  { recorded := v :: s.recorded }

/-- Modelled from the spec: the nonce generator, bound to a randomness
source, a configured byte length and an optional store (section 4.2). -/
structure Noncer where
  source : RandomSource
  byteLength : Nat
  store : Option NonceStore
  pos : Nat

/-- Modelled from the spec: `NewBase64Noncer` as called by the repository's
test, `random.NewBase64Noncer(rand.Reader, 128, nil)`. -/
def NewBase64Noncer (source : RandomSource) (byteLength : Nat)
    (store : Option NonceStore) : Noncer :=
  { source := source, byteLength := byteLength, store := store, pos := 0 }

/-- Modelled from the spec: the bounded retry count of section 4.2; the spec
fixes no concrete budget. -/
def nonceRetryLimit : Nat := 3

/-- One bounded-retry nonce draw: a failed source draw is
`randomnessUnavailable`; with a store, a seen value is redrawn until the fuel
is exhausted (`nonceExhausted`), and a fresh value is recorded before it is
returned; without a store the encoded value is returned unconditionally. -/
def nextAttempt : Nat → Noncer → Except TokenError String × Noncer
  | 0, n => (.error .nonceExhausted, n)
  | fuel + 1, n =>
    match n.source n.pos n.byteLength with
    | none => (.error .randomnessUnavailable, { n with pos := n.pos + 1 })
    | some bs =>
      match n.store with
      | none => (.ok (base64url bs), { n with pos := n.pos + 1 })
      | some st =>
        if st.seen (base64url bs) then nextAttempt fuel { n with pos := n.pos + 1 }
        else (.ok (base64url bs),
          { n with pos := n.pos + 1, store := some (st.record (base64url bs)) })

/-- Modelled from the spec: `Next()` of section 4.2. -/
def Noncer.Next (n : Noncer) : Except TokenError String × Noncer :=
  nextAttempt nonceRetryLimit n

end random

namespace token

/-- Modelled from the spec: the immutable issuance descriptor
`(Alg, Key, Nonce)` of section 3. -/
structure Descriptor where
  Alg : String
  Key : key.Descriptor
  Nonce : Bool
deriving DecidableEq

/-- Modelled from the spec: the per-call request, arbitrary claim data
(section 3); claims are name-value pairs. -/
structure Request where
  claims : List (String × String)
deriving DecidableEq

/-- Modelled from the spec: a constructed factory holds the validated
descriptor, the key resolved once at construction, and the noncer
(sections 4.3 and state machine: keys are resolved at construction, there is
no per-factory mutable issuance state beyond the noncer's). -/
structure Factory where
  descriptor : Descriptor
  sigKey : key.Key
  noncer : random.Noncer

/-- Modelled from the spec: the header JSON carries the algorithm identifier
and the key id (section 4.3 step 1). -/
def headerJSON (alg kid : String) : String :=
  ("\x7b\"alg\":\"") ++ alg ++ ("\",\"kid\":\"") ++ kid ++ ("\"\x7d")

/-- One JSON string field. -/
def jsonField (k v : String) : String :=
  ("\"") ++ k ++ ("\":\"") ++ v ++ ("\"")

/-- Modelled from the spec: the serialized claim set (section 4.3 step 2). -/
def claimsJSON (fields : List (String × String)) : String :=
  ("\x7b") ++ String.intercalate (",") (fields.map (fun p => jsonField p.1 p.2)) ++ ("\x7d")

/-- Modelled from the spec: the signing procedure of the chosen algorithm
applied with the resolved key (section 4.3 step 4); abstracted as a
deterministic function of the key material and the signing input. -/
def sign (k : key.Key) (msg : List Nat) : List Nat :=
  k.material ++ [msg.foldl (fun a b => (a + b) % 256) 0]

/-- Modelled from the spec: eager descriptor validation of section 4.3 -
supported `Alg`, non-empty `Key.Kid`, `Key.Bits` at least the algorithm
minimum. -/
def validDescriptor (d : Descriptor) : Bool :=
  match algMinBits d.Alg with
  | none => false
  | some m => decide (d.Key.Kid.length ≠ 0) && decide (m ≤ d.Key.Bits)

/-- Modelled from the spec: `NewFactory` of section 4.3 - validate the
descriptor eagerly (`InvalidDescriptor` on failure, with no key generation
attempted), then resolve the key via the registry, propagating registry
errors; the registry is returned alongside to make its mutation explicit. -/
def NewFactory (noncer : random.Noncer) (registry : key.Registry) (d : Descriptor) :
    Except TokenError Factory × key.Registry :=
  match algMinBits d.Alg with
  | none => (.error .invalidDescriptor, registry)
  | some m =>
    if d.Key.Kid.length = 0 then (.error .invalidDescriptor, registry)
    else if d.Key.Bits < m then (.error .invalidDescriptor, registry)
    else
      match registry.Resolve d.Key d.Alg with
      | .error e => (.error e, registry)
      | .ok (k, r1) => (.ok { descriptor := d, sigKey := k, noncer := noncer }, r1)

/-- Modelled from the spec: `NewToken` of section 4.3 - build the header,
draw a nonce when the descriptor asks for one (propagating a failed draw
unchanged and producing no token), serialize claims, sign, and concatenate
the three base64url segments with dots.  The returned factory carries the
advanced noncer; nothing else of the factory changes. -/
def Factory.NewToken (f : Factory) (req : Request) : Except TokenError String × Factory :=
  let header := headerJSON f.descriptor.Alg f.sigKey.Kid
  if f.descriptor.Nonce then
    let drawn := f.noncer.Next
    match drawn.1 with
    | .error e => (.error e, { f with noncer := drawn.2 })
    | .ok nonceVal =>
      let claims := claimsJSON (req.claims ++ [(("nonce"), nonceVal)])
      let signingInput := base64url (strBytes header) ++ (".") ++ base64url (strBytes claims)
      (.ok (signingInput ++ (".") ++ base64url (sign f.sigKey (strBytes signingInput))),
        { f with noncer := drawn.2 })
  else
    let claims := claimsJSON req.claims
    let signingInput := base64url (strBytes header) ++ (".") ++ base64url (strBytes claims)
    (.ok (signingInput ++ (".") ++ base64url (sign f.sigKey (strBytes signingInput))), f)

/-- A per-request issuance step with the shared registry threaded through:
`NewToken` has no access to the registry (the key was resolved at
construction), so the registry component is passed through unchanged. -/
def issueStep (registry : key.Registry) (f : Factory) (req : Request) :
    Except TokenError String × key.Registry × Factory :=
  ((f.NewToken req).1, registry, (f.NewToken req).2)

end token

namespace xhttpserver

/-- Errors a `config.Unmarshaller` can produce; `missingKey` embeds Go's
`config.MissingKeyError`, on which `Optional` does its type assertion. -/
inductive ConfigError where
  | missingKey (key : String)
  | unmarshalFailed (msg : String)
deriving DecidableEq

/-- Server options, as unmarshalled from configuration.  Only `name` is
inspected by `unmarshal`; `address` stands for the remaining fields, which
must ride through unchanged. -/
structure Options where
  name : String
  address : String
deriving DecidableEq

/-- A `mux.Router`; `unmarshal` always emits a fresh, empty one. -/
structure Router where
  routes : List String
deriving DecidableEq

/-- The server built by `New(o, serverLogger, serverChain.Then(router))`;
recorded with the options it was constructed from. -/
structure Server where
  options : Options
deriving DecidableEq

/-- An `fx.Hook` appended to the lifecycle; it closes over the server. -/
structure Hook where
  server : Server
deriving DecidableEq

/-- The dependencies of `unmarshal` that its observable behaviour uses: the
unmarshaller and the lifecycle's hook list.  The logger, shutdowner and
parameter builders of Go's `ServerIn` affect neither the returned router and
error nor the server's options and are left out of the embedding. -/
structure ServerIn where
  unmarshaller : String → Except ConfigError Options
  lifecycle : List Hook

/-- Embedding of `unmarshal` (unmarshal.go lines 28-51): unmarshal `Options`
under `configKey` (on error return a nil router and the error), substitute
`configKey` for an empty `Name`, build the server from the resulting options,
append its lifecycle hook, and return the fresh router. -/
def unmarshal (configKey : String) (i : ServerIn) :
    (Option Router × Option ConfigError) × List Hook :=
  match i.unmarshaller configKey with
  | .error e => ((none, some e), i.lifecycle)
  | .ok o0 =>
    let o := if o0.name.length = 0 then { o0 with name := configKey } else o0
    ((some { routes := [] }, none), i.lifecycle ++ [{ server := { options := o } }])

/-- Embedding of `Required` (lines 55-59): the provider just defers to
`unmarshal`, returning whatever error it produces. -/
def Required (configKey : String) :
    ServerIn → (Option Router × Option ConfigError) × List Hook :=
  fun i => unmarshal configKey i

/-- Embedding of `Optional` (lines 72-87): on a `MissingKeyError` from
`unmarshal` it returns a nil router and a nil error (after logging, which the
embedding omits); every other outcome is returned as produced. -/
def Optional (configKey : String) :
    ServerIn → (Option Router × Option ConfigError) × List Hook :=
  fun i =>
    let res := unmarshal configKey i
    match res.1.2 with
    | some (.missingKey _) => ((none, none), res.2)
    | _ => res

/-- An `fx.Annotated` value: a component name together with the provider. -/
structure Annotated where
  name : String
  target : ServerIn → (Option Router × Option ConfigError) × List Hook

/-- Embedding of `NamedRequired` (lines 63-68). -/
def NamedRequired (configKey : String) : Annotated :=
  { name := configKey, target := Required configKey }

/-- Embedding of `NamedOptional` (lines 93-98). -/
def NamedOptional (configKey : String) : Annotated :=
  { name := configKey, target := Optional configKey }

end xhttpserver

/-! Concrete fixtures.  `testSource` is a deterministic stand-in for
`rand.Reader`; the `test*` definitions replay `TestNewFactory` with it:
`key.NewRegistry(rand.Reader)`, `random.NewBase64Noncer(rand.Reader, 128,
nil)`, the RS256/test/512/nonce descriptor and an empty request. -/

/-- A concrete healthy randomness source: the requested number of bytes,
cycling through 0..255. -/
def testSource : RandomSource :=
  fun _ len => some ((List.range len).map (fun i => i % 256))

/-- The registry of the test, freshly constructed over `testSource`. -/
def testRegistry : key.Registry := key.NewRegistry testSource

/-- The noncer of the test: 128-byte nonces, no store. -/
def testNoncer : random.Noncer := random.NewBase64Noncer testSource 128 none

/-- The descriptor of the test: RS256, kid `test`, 512 bits, nonce on. -/
def testDescriptor : token.Descriptor :=
  { Alg := "RS256", Key := { Kid := "test", Bits := 512 }, Nonce := true }

/-- `NewFactory` applied exactly as in the test. -/
def testFactoryResult : Except TokenError token.Factory × key.Registry :=
  token.NewFactory testNoncer testRegistry testDescriptor

/-- `NewToken` on the empty request, after the construction above. -/
def testTokenResult : Except TokenError String :=
  match testFactoryResult.1 with
  | .error e => .error e
  | .ok f => (f.NewToken { claims := [] }).1

/-- The key the registry generates for the test descriptor. -/
def testKey : key.Key :=
  { Kid := "test", Alg := "RS256", Bits := 512,
    material := (List.range 512).map (fun i => i % 256) }

/-- The nonce the noncer draws in the test scenario. -/
def testNonce : String := base64url ((List.range 128).map (fun i => i % 256))

/-- The token's header segment in the test scenario. -/
def testHeaderSeg : String := base64url (strBytes (token.headerJSON ("RS256") ("test")))

/-- The token's claims segment in the test scenario. -/
def testClaimsSeg : String :=
  base64url (strBytes (token.claimsJSON [(("nonce"), testNonce)]))

/-- The token's signature segment in the test scenario. -/
def testSigSeg : String :=
  base64url (token.sign testKey (strBytes (testHeaderSeg ++ (".") ++ testClaimsSeg)))

/-- A healthy witness source delivering zero bytes. -/
def wSrc : RandomSource := fun _ len => some (List.replicate len 0)

/-- A randomness source that always fails. -/
def failSource : RandomSource := fun _ _ => none

/-- A factory whose noncer can never draw: its source always fails. -/
def wFailFactory : token.Factory :=
  { descriptor := testDescriptor,
    sigKey := { Kid := "test", Alg := "RS256", Bits := 512, material := [] },
    noncer := random.NewBase64Noncer failSource 128 none }

/-- A descriptor differing from the test one only in `Bits`. -/
def wConflictDescriptor : token.Descriptor :=
  { Alg := "RS256", Key := { Kid := "test", Bits := 1024 }, Nonce := true }

/-- A descriptor whose `Bits` falls below the RS256 minimum. -/
def wWeakDescriptor : token.Descriptor :=
  { Alg := "RS256", Key := { Kid := "test", Bits := 256 }, Nonce := true }

/-- The registry after the test's key has been generated and stored. -/
def wResolvedRegistry : key.Registry :=
  { source := testSource, pos := 1, keys := [(("test"), testKey)] }

/-- The factory the test's `NewFactory` call constructs. -/
def wFactory : token.Factory :=
  { descriptor := testDescriptor, sigKey := testKey, noncer := testNoncer }

/-- A `ServerIn` whose unmarshaller reports the configuration key missing. -/
def wInMissing : xhttpserver.ServerIn :=
  { unmarshaller := fun k => .error (.missingKey k), lifecycle := [] }

/-- Options with an empty name, as unmarshalled. -/
def wEmptyNameOptions : xhttpserver.Options := { name := "", address := ":8080" }

/-- A `ServerIn` whose unmarshaller succeeds with an empty `Name`. -/
def wInOk : xhttpserver.ServerIn :=
  { unmarshaller := fun _ => .ok wEmptyNameOptions, lifecycle := [] }

/-! Theorems. -/

/-- Claim C8: `Optional(configKey)` returns a nil router and no error when
the underlying unmarshal fails with a `config.MissingKeyError`, and otherwise
returns exactly what `unmarshal` produced; `Required` always returns
`unmarshal`'s result, error included. -/
theorem optional_missing_key_is_nil (configKey : String) (i : xhttpserver.ServerIn) :
    ((∃ s, i.unmarshaller configKey = .error (.missingKey s)) →
      (xhttpserver.Optional configKey i).1 = (none, none)) ∧
    ((∀ s, i.unmarshaller configKey ≠ .error (.missingKey s)) →
      xhttpserver.Optional configKey i = xhttpserver.unmarshal configKey i) ∧
    xhttpserver.Required configKey i = xhttpserver.unmarshal configKey i := by
  refine ⟨?_, ?_, rfl⟩
  · rintro ⟨s, hs⟩
    simp [xhttpserver.Optional, xhttpserver.unmarshal, hs]
  · intro h
    cases he : i.unmarshaller configKey with
    | error e =>
      cases e with
      | missingKey s => exact absurd he (h s)
      | unmarshalFailed m => simp [xhttpserver.Optional, xhttpserver.unmarshal, he]
    | ok o => simp [xhttpserver.Optional, xhttpserver.unmarshal, he]

/-- Witness for claim C8, at the configuration key `servers.api` and an
unmarshaller that reports every key missing. -/
theorem optional_missing_key_is_nil_witness :
    (xhttpserver.Optional ("servers.api") wInMissing).1 = (none, none) :=
  (optional_missing_key_is_nil ("servers.api") wInMissing).1 ⟨("servers.api"), rfl⟩

/-- Claim C9: `unmarshal` substitutes `configKey` for the unmarshalled `Name`
exactly when that name is empty; a non-empty name reaches server construction
unchanged, together with all other options. -/
theorem unmarshal_name_substitution (configKey : String) (i : xhttpserver.ServerIn)
    (o : xhttpserver.Options) (h : i.unmarshaller configKey = .ok o) :
    ∃ srv : xhttpserver.Server,
      (xhttpserver.unmarshal configKey i).2 = i.lifecycle ++ [{ server := srv }] ∧
      (o.name.length = 0 → srv.options = { o with name := configKey }) ∧
      (o.name.length ≠ 0 → srv.options = o) := by
  refine ⟨{ options := if o.name.length = 0 then { o with name := configKey } else o },
    ?_, ?_, ?_⟩
  · simp [xhttpserver.unmarshal, h]
  · intro hn
    simp [hn]
  · intro hn
    simp [hn]

/-- Witness for claim C9, at an unmarshaller that yields options whose name
is empty. -/
theorem unmarshal_name_substitution_witness :
    wInOk.unmarshaller ("servers.api") = .ok wEmptyNameOptions ∧
    (∃ srv : xhttpserver.Server,
      (xhttpserver.unmarshal ("servers.api") wInOk).2 =
        wInOk.lifecycle ++ [{ server := srv }] ∧
      (wEmptyNameOptions.name.length = 0 →
        srv.options = { wEmptyNameOptions with name := "servers.api" }) ∧
      (wEmptyNameOptions.name.length ≠ 0 → srv.options = wEmptyNameOptions)) :=
  ⟨rfl, unmarshal_name_substitution ("servers.api") wInOk wEmptyNameOptions rfl⟩

/-- Claim C10: `NamedRequired` and `NamedOptional` annotate the emitted
component with the configuration key as its name, and their targets are
exactly the `Required` respectively `Optional` providers for that key. -/
theorem named_providers_use_configKey (configKey : String) :
    (xhttpserver.NamedRequired configKey).name = configKey ∧
    (xhttpserver.NamedRequired configKey).target = xhttpserver.Required configKey ∧
    (xhttpserver.NamedOptional configKey).name = configKey ∧
    (xhttpserver.NamedOptional configKey).target = xhttpserver.Optional configKey :=
  ⟨rfl, rfl, rfl, rfl⟩

/-- A failed bounded-retry nonce draw reports retry exhaustion or a
randomness failure, nothing else. -/
theorem nextAttempt_error_cases (fuel : Nat) (n : random.Noncer) (e : TokenError)
    (h : (random.nextAttempt fuel n).1 = .error e) :
    e = .nonceExhausted ∨ e = .randomnessUnavailable := by
  induction fuel generalizing n with
  | zero =>
    simp [random.nextAttempt] at h
    exact Or.inl h.symm
  | succ fuel ih =>
    unfold random.nextAttempt at h
    split at h
    · simp at h
      exact Or.inr h.symm
    · split at h
      · simp at h
      · split at h
        · exact ih _ h
        · simp at h

/-- A nonce draw touches only the noncer's position and store: the bound
source and the configured byte length survive it. -/
theorem nextAttempt_source_byteLength (fuel : Nat) (n : random.Noncer) :
    (random.nextAttempt fuel n).2.source = n.source ∧
    (random.nextAttempt fuel n).2.byteLength = n.byteLength := by
  induction fuel generalizing n with
  | zero => exact ⟨rfl, rfl⟩
  | succ fuel ih =>
    constructor
    · unfold random.nextAttempt
      split
      · rfl
      · split
        · rfl
        · split
          · exact (ih _).1
          · rfl
    · unfold random.nextAttempt
      split
      · rfl
      · split
        · rfl
        · split
          · exact (ih _).2
          · rfl

/-- Claim C6: with a nonce-bearing descriptor, a failed nonce draw makes
`NewToken` return that `NonceExhausted` or `RandomnessUnavailable` error
unchanged; no token is produced and no signature is computed. -/
theorem nonce_failure_aborts_newToken (f : token.Factory) (req : token.Request)
    (e : TokenError) (hn : f.descriptor.Nonce = true)
    (he : (f.noncer.Next).1 = .error e) :
    (f.NewToken req).1 = .error e ∧
    (e = .nonceExhausted ∨ e = .randomnessUnavailable) := by
  constructor
  · simp [token.Factory.NewToken, hn, he]
  · exact nextAttempt_error_cases random.nonceRetryLimit f.noncer e he

/-- Witness for claim C6, at a factory whose noncer's randomness source
always fails. -/
theorem nonce_failure_aborts_newToken_witness :
    (wFailFactory.NewToken { claims := [] }).1 = .error .randomnessUnavailable ∧
    (TokenError.randomnessUnavailable = .nonceExhausted ∨
      TokenError.randomnessUnavailable = .randomnessUnavailable) :=
  nonce_failure_aborts_newToken wFailFactory { claims := [] } .randomnessUnavailable rfl rfl

/-- Claim C7: a `NewToken` call leaves the threaded registry untouched and
mutates no per-factory issuance state: the resolved key, the descriptor, the
noncer's source and its byte length are all unchanged; only the noncer's
draw position and store may move. -/
theorem newToken_preserves_registry (r : key.Registry) (f : token.Factory)
    (req : token.Request) :
    (token.issueStep r f req).2.1 = r ∧
    (f.NewToken req).2.sigKey = f.sigKey ∧
    (f.NewToken req).2.descriptor = f.descriptor ∧
    (f.NewToken req).2.noncer.source = f.noncer.source ∧
    (f.NewToken req).2.noncer.byteLength = f.noncer.byteLength := by
  have hsrc := nextAttempt_source_byteLength random.nonceRetryLimit f.noncer
  have h2 : (f.NewToken req).2 = f ∨
      (f.NewToken req).2 = { f with noncer := (f.noncer.Next).2 } := by
    by_cases hN : f.descriptor.Nonce
    · cases hd : (f.noncer.Next).1 with
      | error e =>
        right
        simp [token.Factory.NewToken, hN, hd]
      | ok v =>
        right
        simp [token.Factory.NewToken, hN, hd]
    · left
      simp [token.Factory.NewToken, hN]
  refine ⟨rfl, ?_, ?_, ?_, ?_⟩ <;> rcases h2 with h2 | h2 <;> rw [h2] <;>
    first
      | rfl
      | exact hsrc.1
      | exact hsrc.2

/-- Claim C3: a descriptor whose `Key.Bits` lies below its algorithm's
minimum makes `NewFactory` fail with `InvalidDescriptor` and leaves the
registry untouched (no key generation is attempted); and 512 bits meets the
RS256 minimum, as the required success of the RS256/512 scenario demands. -/
theorem low_bits_invalidDescriptor :
    (∀ (n : random.Noncer) (r : key.Registry) (d : token.Descriptor) (m : Nat),
      algMinBits d.Alg = some m → d.Key.Bits < m →
      token.NewFactory n r d = (.error .invalidDescriptor, r)) ∧
    (∀ m, algMinBits ("RS256") = some m → m ≤ 512) := by
  constructor
  · intro n r d m hm hlt
    unfold token.NewFactory
    rw [hm]
    by_cases hk : d.Key.Kid.length = 0
    · simp [hk]
    · simp [hk, hlt]
  · intro m hm
    have h0 : algMinBits ("RS256") = some 512 := rfl
    rw [h0] at hm
    injection hm with hm
    omega

/-- Witness for claim C3, at the 256-bit RS256 descriptor. -/
theorem low_bits_invalidDescriptor_witness :
    token.NewFactory testNoncer testRegistry wWeakDescriptor =
      (.error .invalidDescriptor, testRegistry) ∧ (512 : Nat) ≤ 512 :=
  ⟨low_bits_invalidDescriptor.1 testNoncer testRegistry wWeakDescriptor 512 rfl (by decide),
    low_bits_invalidDescriptor.2 512 rfl⟩

/-- A successful `Resolve` leaves the requested kid bound to the returned
key, whose recorded algorithm and strength are the requested ones. -/
theorem resolve_key_props (r : key.Registry) (d : key.Descriptor) (alg : String)
    (k : key.Key) (r1 : key.Registry) (h : r.Resolve d alg = .ok (k, r1)) :
    r1.find d.Kid = some k ∧ k.Alg = alg ∧ k.Bits = d.Bits := by
  unfold key.Registry.Resolve at h
  split at h
  · rename_i k0 hk0
    split at h
    · rename_i hc
      simp only [Except.ok.injEq, Prod.mk.injEq] at h
      obtain ⟨hk, hr⟩ := h
      subst hk
      subst hr
      exact ⟨hk0, hc.1, hc.2⟩
    · simp at h
  · rename_i hk0
    split at h
    · simp at h
    · rename_i m hm
      split at h
      · simp at h
      · split at h
        · simp at h
        · rename_i mat hmat
          simp only [Except.ok.injEq, Prod.mk.injEq] at h
          obtain ⟨hk, hr⟩ := h
          subst hk
          subst hr
          refine ⟨?_, rfl, rfl⟩
          simp [key.Registry.find]

/-- Claim C4: `Resolve` is idempotent - after a successful call, an
identical call against the resulting registry returns the very same key and
the unchanged registry; a kid is never bound to two different keys. -/
theorem resolve_idempotent (r : key.Registry) (d : key.Descriptor) (alg : String)
    (k : key.Key) (r1 : key.Registry) (h : r.Resolve d alg = .ok (k, r1)) :
    r1.Resolve d alg = .ok (k, r1) := by
  obtain ⟨hf, ha, hb⟩ := resolve_key_props r d alg k r1 h
  unfold key.Registry.Resolve
  simp only [hf, ha, hb, and_self, if_true]

/-- Witness for claim C4, replaying the test's key resolution. -/
theorem resolve_idempotent_witness :
    wResolvedRegistry.Resolve { Kid := "test", Bits := 512 } ("RS256") =
      .ok (testKey, wResolvedRegistry) :=
  resolve_idempotent testRegistry { Kid := "test", Bits := 512 } ("RS256") testKey
    wResolvedRegistry rfl

/-- A successful `NewFactory` leaves the descriptor's kid bound to the
factory's key, whose recorded algorithm and strength are the descriptor's. -/
theorem newFactory_key_props (n : random.Noncer) (r : key.Registry) (d : token.Descriptor)
    (f : token.Factory) (r1 : key.Registry)
    (h : token.NewFactory n r d = (.ok f, r1)) :
    r1.find d.Key.Kid = some f.sigKey ∧ f.sigKey.Alg = d.Alg ∧
      f.sigKey.Bits = d.Key.Bits := by
  unfold token.NewFactory at h
  split at h
  · simp at h
  · rename_i m hm
    split at h
    · simp at h
    · split at h
      · simp at h
      · split at h
        · simp at h
        · rename_i k0 r2 heq
          simp only [Prod.mk.injEq, Except.ok.injEq] at h
          obtain ⟨hf, hr⟩ := h
          subst hf
          subst hr
          exact resolve_key_props _ _ _ _ _ heq

/-- Claim C5: after a factory was built over a registry, building a second
factory from a valid descriptor that names the same kid but differs in
algorithm or strength fails with `KeyConflict`, and the registry is neither
extended nor overwritten. -/
theorem second_factory_keyConflict (n1 n2 : random.Noncer) (r r1 : key.Registry)
    (f1 : token.Factory) (d1 d2 : token.Descriptor)
    (h1 : token.NewFactory n1 r d1 = (.ok f1, r1))
    (hkid : d2.Key.Kid = d1.Key.Kid)
    (hdiff : d2.Alg ≠ d1.Alg ∨ d2.Key.Bits ≠ d1.Key.Bits)
    (hv : token.validDescriptor d2 = true) :
    token.NewFactory n2 r1 d2 = (.error .keyConflict, r1) := by
  obtain ⟨hf, ha, hb⟩ := newFactory_key_props n1 r d1 f1 r1 h1
  unfold token.validDescriptor at hv
  split at hv
  · cases hv
  · rename_i m hm
    simp only [Bool.and_eq_true, decide_eq_true_eq] at hv
    obtain ⟨hk, hble⟩ := hv
    have hcond : ¬ (f1.sigKey.Alg = d2.Alg ∧ f1.sigKey.Bits = d2.Key.Bits) := by
      rintro ⟨hA, hB⟩
      rcases hdiff with hd | hd
      · exact hd (hA ▸ ha)
      · exact hd (hB ▸ hb)
    have hres : r1.Resolve d2.Key d2.Alg = .error .keyConflict := by
      unfold key.Registry.Resolve
      rw [hkid]
      simp only [hf, hcond, if_false]
    unfold token.NewFactory
    simp only [hm]
    rw [if_neg hk, if_neg (by omega)]
    simp only [hres]

/-- Witness for claim C5: rebuilding over the test's registry with the same
kid at 1024 bits fails with `KeyConflict`. -/
theorem second_factory_keyConflict_witness :
    token.NewFactory testNoncer wResolvedRegistry wConflictDescriptor =
      (.error .keyConflict, wResolvedRegistry) :=
  second_factory_keyConflict testNoncer testNoncer testRegistry wResolvedRegistry wFactory
    testDescriptor wConflictDescriptor rfl rfl (Or.inr (by decide)) rfl

/-- Three dot-joined segments make a non-empty string. -/
theorem dotted_length_pos (a b c : String) :
    0 < (a ++ (".") ++ b ++ (".") ++ c).length := by
  have h1 : ((".") : String).length = 1 := rfl
  simp only [String.length_append]
  omega

/-- `Resolve` on a kid not yet in the registry, with acceptable parameters
and a delivering source, generates and stores the key. -/
theorem resolve_generates (r : key.Registry) (d : key.Descriptor) (alg : String) (m : Nat)
    (mat : List Nat) (hfind : r.find d.Kid = none) (hm : algMinBits alg = some m)
    (hb : m ≤ d.Bits) (hmat : r.source r.pos d.Bits = some mat) :
    r.Resolve d alg =
      .ok ({ Kid := d.Kid, Alg := alg, Bits := d.Bits, material := mat },
        { r with pos := r.pos + 1, keys := (d.Kid, { Kid := d.Kid, Alg := alg, Bits := d.Bits, material := mat }) :: r.keys }) := by
  unfold key.Registry.Resolve
  simp only [hfind, hm, hmat]
  rw [if_neg (by omega)]

/-- `NewFactory` on a valid descriptor returns the factory holding the
descriptor, the resolved key and the given noncer. -/
theorem newFactory_ok (n : random.Noncer) (r : key.Registry) (d : token.Descriptor)
    (k : key.Key) (r1 : key.Registry) (hv : token.validDescriptor d = true)
    (hres : r.Resolve d.Key d.Alg = .ok (k, r1)) :
    token.NewFactory n r d = (.ok { descriptor := d, sigKey := k, noncer := n }, r1) := by
  unfold token.validDescriptor at hv
  split at hv
  · cases hv
  · rename_i m hm
    simp only [Bool.and_eq_true, decide_eq_true_eq] at hv
    obtain ⟨hk, hb⟩ := hv
    unfold token.NewFactory
    simp only [hm]
    rw [if_neg hk, if_neg (by omega)]
    simp only [hres]

/-- A storeless noncer over a delivering source returns the encoded first
draw. -/
theorem next_ok_no_store (src : RandomSource) (len : Nat) (nb : List Nat)
    (h : src 0 len = some nb) :
    (random.NewBase64Noncer src len none).Next =
      (.ok (base64url nb),
        { source := src, byteLength := len, store := none, pos := 1 }) := by
  unfold random.Noncer.Next random.nonceRetryLimit
  unfold random.nextAttempt
  simp only [random.NewBase64Noncer, h]

/-- With the nonce flag set and a successful draw, `NewToken` returns the
compact serialization over the claims extended with the nonce, and the
factory with the advanced noncer. -/
theorem newToken_eq_of_next_ok (f : token.Factory) (req : token.Request) (v : String)
    (n1 : random.Noncer) (hN : f.descriptor.Nonce = true)
    (hnext : f.noncer.Next = (.ok v, n1)) :
    f.NewToken req =
      (.ok (base64url (strBytes (token.headerJSON f.descriptor.Alg f.sigKey.Kid)) ++ (".") ++
          base64url (strBytes (token.claimsJSON (req.claims ++ [(("nonce"), v)]))) ++ (".") ++
          base64url (token.sign f.sigKey (strBytes
            (base64url (strBytes (token.headerJSON f.descriptor.Alg f.sigKey.Kid)) ++ (".") ++
             base64url (strBytes (token.claimsJSON (req.claims ++ [(("nonce"), v)]))))))),
        { f with noncer := n1 }) := by
  simp only [token.Factory.NewToken, hN, hnext, if_true]

/-- Without the nonce flag, `NewToken` returns the compact serialization of
the request's claims and the factory unchanged. -/
theorem newToken_eq_no_nonce (f : token.Factory) (req : token.Request)
    (hN : f.descriptor.Nonce = false) :
    f.NewToken req =
      (.ok (base64url (strBytes (token.headerJSON f.descriptor.Alg f.sigKey.Kid)) ++ (".") ++
          base64url (strBytes (token.claimsJSON req.claims)) ++ (".") ++
          base64url (token.sign f.sigKey (strBytes
            (base64url (strBytes (token.headerJSON f.descriptor.Alg f.sigKey.Kid)) ++ (".") ++
             base64url (strBytes (token.claimsJSON req.claims)))))), f) := by
  simp only [token.Factory.NewToken, hN, Bool.false_eq_true, if_false]

/-- Claim C1: for every valid issuance descriptor, with fresh registry and
noncer over healthy randomness sources, `NewFactory` succeeds and an
immediately following `NewToken` on the empty request succeeds with a token
of positive length. -/
theorem newFactory_newToken_succeeds (ksrc nsrc : RandomSource) (len : Nat)
    (d : token.Descriptor) (hks : HealthySource ksrc) (hns : HealthySource nsrc)
    (hd : token.validDescriptor d = true) :
    ∃ (f : token.Factory) (r1 : key.Registry) (tok : String) (f1 : token.Factory),
      token.NewFactory (random.NewBase64Noncer nsrc len none) (key.NewRegistry ksrc) d =
        (.ok f, r1) ∧
      f.NewToken { claims := [] } = (.ok tok, f1) ∧ 0 < tok.length := by
  have hd2 := hd
  unfold token.validDescriptor at hd2
  split at hd2
  · cases hd2
  · rename_i m hm
    simp only [Bool.and_eq_true, decide_eq_true_eq] at hd2
    obtain ⟨hk, hb⟩ := hd2
    obtain ⟨mat, hmat⟩ := Option.isSome_iff_exists.mp (hks 0 d.Key.Bits)
    have hres := resolve_generates (key.NewRegistry ksrc) d.Key d.Alg m mat rfl hm hb hmat
    have hNF := newFactory_ok (random.NewBase64Noncer nsrc len none) (key.NewRegistry ksrc)
      d _ _ hd hres
    obtain ⟨nb, hnb⟩ := Option.isSome_iff_exists.mp (hns 0 len)
    have hnext := next_ok_no_store nsrc len nb hnb
    cases hN : d.Nonce with
    | true =>
      have hNT := newToken_eq_of_next_ok
        { descriptor := d,
          sigKey := { Kid := d.Key.Kid, Alg := d.Alg, Bits := d.Key.Bits, material := mat },
          noncer := random.NewBase64Noncer nsrc len none }
        { claims := [] } (base64url nb)
        { source := nsrc, byteLength := len, store := none, pos := 1 } hN hnext
      exact ⟨_, _, _, _, hNF, hNT, dotted_length_pos _ _ _⟩
    | false =>
      have hNT := newToken_eq_no_nonce
        { descriptor := d,
          sigKey := { Kid := d.Key.Kid, Alg := d.Alg, Bits := d.Key.Bits, material := mat },
          noncer := random.NewBase64Noncer nsrc len none }
        { claims := [] } hN
      exact ⟨_, _, _, _, hNF, hNT, dotted_length_pos _ _ _⟩

/-- Witness for claim C1, at the test's descriptor and sources. -/
theorem newFactory_newToken_succeeds_witness :
    HealthySource testSource ∧ token.validDescriptor testDescriptor = true ∧
    (∃ (f : token.Factory) (r1 : key.Registry) (tok : String) (f1 : token.Factory),
      token.NewFactory (random.NewBase64Noncer testSource 128 none) (key.NewRegistry testSource)
        testDescriptor = (.ok f, r1) ∧
      f.NewToken { claims := [] } = (.ok tok, f1) ∧ 0 < tok.length) :=
  ⟨fun _ _ => rfl, rfl,
    newFactory_newToken_succeeds testSource testSource 128 testDescriptor
      (fun _ _ => rfl) (fun _ _ => rfl) rfl⟩

set_option maxRecDepth 8192 in
/-- Claim C2: the test scenario - descriptor RS256/kid test/512 bits with
nonce, empty request - yields a token of three dot-free segments joined by
dots, whose header segment encodes the JSON object with alg `RS256` and kid
`test`, and whose claims segment encodes a claims object carrying the
non-empty drawn nonce. -/
theorem token_concrete_rs256_scenario :
    testTokenResult = .ok (testHeaderSeg ++ (".") ++ testClaimsSeg ++ (".") ++ testSigSeg) ∧
    testHeaderSeg = base64url (strBytes (token.headerJSON ("RS256") ("test"))) ∧
    token.headerJSON ("RS256") ("test") = ("\x7b\"alg\":\"RS256\",\"kid\":\"test\"\x7d") ∧
    testClaimsSeg = base64url (strBytes (token.claimsJSON [(("nonce"), testNonce)])) ∧
    token.claimsJSON [(("nonce"), testNonce)] =
      ("\x7b\"nonce\":\"") ++ testNonce ++ ("\"\x7d") ∧
    0 < testNonce.length ∧
    ('.') ∉ testHeaderSeg.toList ∧ ('.') ∉ testClaimsSeg.toList ∧
    ('.') ∉ testSigSeg.toList :=
  ⟨rfl, rfl, rfl, rfl, rfl, by decide, by decide, by decide, by decide⟩
